import Mathlib

/-!
Verification of the breakpoint-matching and change-coalescing engine of the
flex-layout media-query core: the breakpoint registry data model, the
MatchMedia evaluator adapter, the ChangeQueue coalescing engine, the
MediaMonitor orchestration layer and the ObservableMedia facade, shallowly
embedded from the TypeScript sources.
-/

set_option maxHeartbeats 1000000

/-- Breakpoint range definition, from breakpoints/break-point.ts via its uses:
a named range with an alias, an underlying media query string, a derived
suffix and an overlapping flag. -/
structure BreakPoint where
  «alias» : String
  mediaQuery : String
  suffix : String := ""
  overlapping : Bool := false
deriving DecidableEq, Repr

/-- Modelled from the spec: the ChangeEvent record (media-change.ts is not in
the sources): a query string, a matches boolean (true means just became
active), and optional alias and suffix fields populated by the Monitor after
resolution and left empty for queries with no matching registered range. The
constructor takes matches first and leaves the query at the universal query
and the alias and suffix fields empty when not supplied, matching the call
sites new MediaChange(true) and new MediaChange(e.matches, mediaQuery) that
appear in the sources. -/
structure MediaChange where
  «matches» : Bool
  mediaQuery : String := "all"
  mqAlias : String := ""
  suffix : String := ""
deriving DecidableEq, Repr

/-- Raw event built by MatchMedia.registerQuery listeners, from
match-media.ts line 65: new MediaChange(e.matches, mediaQuery), so the alias
and suffix fields keep their empty defaults. -/
def MediaChange.raw (b : Bool) (q : String) : MediaChange :=
  { «matches» := b, mediaQuery := q }

/-- Seed event of the BehaviorSubject in MediaMonitor and MediaService
constructors: new MediaChange(true). -/
def MediaChange.initial : MediaChange :=
  { «matches» := true }

/-- ChangeQueue._findActivationFor from change-queue.ts lines 81 to 85: a
JavaScript reduce over the activated buffer with null start, keeping the
first change whose mediaQuery equals the given breakpoint query. -/
def ChangeQueue.findActivationFor (activated : List MediaChange) (bp : BreakPoint) :
    Option MediaChange :=
  activated.foldl (fun result change =>
    result.orElse (fun _ =>
      if change.mediaQuery = bp.mediaQuery then some change else none)) none

/-- The reduce inside ChangeQueue._announceActivation from change-queue.ts
lines 60 to 64: fold over the breakpoint registry with null start, keeping
the first breakpoint activation found; the result (possibly null) is what
_notify is invoked with. -/
def ChangeQueue.findFirstActivation (breakpoints : List BreakPoint)
    (activated : List MediaChange) : Option MediaChange :=
  breakpoints.foldl (fun change bp =>
    change.orElse (fun _ => ChangeQueue.findActivationFor activated bp)) none

/-- One flush of the ChangeQueue as the sequence of _notify invocations,
from change-queue.ts lines 31 to 34: _announceDeactivations notifies every
buffered deactivation in order, then _announceActivation notifies the reduce
result, which may be null. -/
def ChangeQueue.flushTrace (breakpoints : List BreakPoint)
    (deactivated activated : List MediaChange) : List (Option MediaChange) :=
  deactivated.map some ++ [ChangeQueue.findFirstActivation breakpoints activated]

/-- The events a flush actually delivers to subscribers: MediaMonitor._next
(and MediaService._next) drops a null notification and forwards every
non-null MediaChange to the BehaviorSubject. -/
def monitorFlushEmits (breakpoints : List BreakPoint)
    (deactivated activated : List MediaChange) : List MediaChange :=
  (ChangeQueue.flushTrace breakpoints deactivated activated).filterMap id

/-- Activation events of one flush that survive the null filter. -/
def flushActivations (breakpoints : List BreakPoint)
    (activated : List MediaChange) : List MediaChange :=
  (ChangeQueue.findFirstActivation breakpoints activated).toList

/-! Helper lemmas about the two null-seeded reduces of the ChangeQueue. -/

theorem foldl_orElse_keep_some {α β : Type} (g : β → Option α) (l : List β) (x : α) :
    l.foldl (fun r b => r.orElse (fun _ => g b)) (some x) = some x := by
  induction l with
  | nil => rfl
  | cons b t ih => simpa using ih

theorem none_orElse_eval {α : Type} (f : Unit → Option α) :
    Option.none.orElse f = f () := rfl

theorem some_orElse_eval {α : Type} (x : α) (f : Unit → Option α) :
    (Option.some x).orElse f = some x := rfl

theorem some_bind_eval {α β : Type} (x : α) (f : α → Option β) :
    (Option.some x).bind f = f x := rfl

theorem findActivationFor_eq_find (activated : List MediaChange) (bp : BreakPoint) :
    ChangeQueue.findActivationFor activated bp =
      activated.find? (fun c => c.mediaQuery == bp.mediaQuery) := by
  induction activated with
  | nil => rfl
  | cons c t ih =>
    by_cases h : c.mediaQuery = bp.mediaQuery
    · simp only [ChangeQueue.findActivationFor, List.foldl_cons, none_orElse_eval,
        if_pos h]
      rw [foldl_orElse_keep_some]
      rw [List.find?_cons_of_pos _ (by simpa using h)]
    · simp only [ChangeQueue.findActivationFor, List.foldl_cons, none_orElse_eval,
        if_neg h]
      rw [List.find?_cons_of_neg _ (by simpa using h)]
      exact ih

theorem findFirstActivation_eq (breakpoints : List BreakPoint)
    (activated : List MediaChange) :
    ChangeQueue.findFirstActivation breakpoints activated =
      (breakpoints.find? (fun bp =>
        activated.any (fun c => c.mediaQuery == bp.mediaQuery))).bind
        (fun bp => activated.find? (fun c => c.mediaQuery == bp.mediaQuery)) := by
  induction breakpoints with
  | nil => rfl
  | cons bp t ih =>
    have hstep : ChangeQueue.findFirstActivation (bp :: t) activated =
        t.foldl (fun change b =>
          change.orElse (fun _ => ChangeQueue.findActivationFor activated b))
          (ChangeQueue.findActivationFor activated bp) := by
      simp [ChangeQueue.findFirstActivation, List.foldl_cons]
    cases hfind : activated.find? (fun c => c.mediaQuery == bp.mediaQuery) with
    | some c =>
      have hpc := List.find?_some hfind
      have hany : activated.any (fun c => c.mediaQuery == bp.mediaQuery) = true :=
        List.any_eq_true.mpr ⟨c, List.mem_of_find?_eq_some hfind, hpc⟩
      have hfc : (bp :: t).find? (fun bp =>
          activated.any (fun c => c.mediaQuery == bp.mediaQuery)) = some bp :=
        List.find?_cons_of_pos _ hany
      rw [hstep, findActivationFor_eq_find, hfind, foldl_orElse_keep_some,
        hfc, some_bind_eval, hfind]
    | none =>
      have hany : activated.any (fun c => c.mediaQuery == bp.mediaQuery) = false := by
        rw [Bool.eq_false_iff]
        intro hcontra
        rw [List.any_eq_true] at hcontra
        obtain ⟨c, hc, hcq⟩ := hcontra
        have := List.find?_eq_none.mp hfind c hc
        exact this hcq
      have hfc : (bp :: t).find? (fun bp =>
          activated.any (fun c => c.mediaQuery == bp.mediaQuery)) =
          t.find? (fun bp =>
            activated.any (fun c => c.mediaQuery == bp.mediaQuery)) :=
        List.find?_cons_of_neg _ (by simp [hany])
      rw [hstep, findActivationFor_eq_find, hfind, hfc]
      exact ih

theorem bool_eq_of_true_iff {a b : Bool} (h : a = true ↔ b = true) : a = b := by
  cases a <;> cases b <;> simp_all

theorem find?_raw_by_query (as bs : List MediaChange) (q : String)
    (hraw : ∀ c ∈ as, c = MediaChange.raw true c.mediaQuery)
    (hraw2 : ∀ c ∈ bs, c = MediaChange.raw true c.mediaQuery)
    (hsame : (∃ c ∈ as, c.mediaQuery = q) ↔ (∃ c ∈ bs, c.mediaQuery = q)) :
    as.find? (fun c => c.mediaQuery == q) = bs.find? (fun c => c.mediaQuery == q) := by
  cases ha : as.find? (fun c => c.mediaQuery == q) with
  | some c =>
    have hc : c ∈ as := List.mem_of_find?_eq_some ha
    have hcq : c.mediaQuery = q := by simpa using List.find?_some ha
    cases hb : bs.find? (fun c => c.mediaQuery == q) with
    | some c2 =>
      have hc2 : c2 ∈ bs := List.mem_of_find?_eq_some hb
      have hc2q : c2.mediaQuery = q := by simpa using List.find?_some hb
      rw [hraw c hc, hraw2 c2 hc2, hcq, hc2q]
    | none =>
      exfalso
      obtain ⟨c2, hc2, hc2q⟩ := hsame.mp ⟨c, hc, hcq⟩
      exact List.find?_eq_none.mp hb c2 hc2 (by simpa using hc2q)
  | none =>
    cases hb : bs.find? (fun c => c.mediaQuery == q) with
    | some c2 =>
      exfalso
      have hc2 : c2 ∈ bs := List.mem_of_find?_eq_some hb
      have hc2q : c2.mediaQuery = q := by simpa using List.find?_some hb
      obtain ⟨c, hc, hcq⟩ := hsame.mpr ⟨c2, hc2, hc2q⟩
      exact List.find?_eq_none.mp ha c hc (by simpa using hcq)
    | none => rfl

/-- Claim C1: every flush of the ChangeQueue emits at most one activation
event; the emitted activation, if any, is the queued activation whose query
equals the mediaQuery of the first breakpoint in registry order that has any
matching queued activation; and the resolution result depends only on
registry order, never on the arrival order of the queued activation
events. -/
theorem changeQueue_priority_activation_resolution
    (bps : List BreakPoint) (act act2 : List MediaChange)
    (hraw : ∀ c ∈ act, c = MediaChange.raw true c.mediaQuery)
    (hraw2 : ∀ c ∈ act2, c = MediaChange.raw true c.mediaQuery)
    (hsame : ∀ q, (∃ c ∈ act, c.mediaQuery = q) ↔ (∃ c ∈ act2, c.mediaQuery = q)) :
    (flushActivations bps act).length ≤ 1
    ∧ (∀ c, ChangeQueue.findFirstActivation bps act = some c →
        c ∈ act ∧
        ∃ bp, bps.find? (fun b => act.any (fun a => a.mediaQuery == b.mediaQuery)) =
            some bp ∧ c.mediaQuery = bp.mediaQuery)
    ∧ ChangeQueue.findFirstActivation bps act =
        ChangeQueue.findFirstActivation bps act2 := by
  refine ⟨?_, ?_, ?_⟩
  · unfold flushActivations
    cases ChangeQueue.findFirstActivation bps act <;> simp
  · intro c hc
    rw [findFirstActivation_eq] at hc
    cases hf : bps.find? (fun b => act.any (fun a => a.mediaQuery == b.mediaQuery)) with
    | none => rw [hf] at hc; exact absurd hc (by simp)
    | some bp =>
      rw [hf, some_bind_eval] at hc
      refine ⟨List.mem_of_find?_eq_some hc, bp, rfl, ?_⟩
      simpa using List.find?_some hc
  · rw [findFirstActivation_eq, findFirstActivation_eq]
    have hpred : (fun b : BreakPoint => act.any (fun c => c.mediaQuery == b.mediaQuery)) =
        (fun b : BreakPoint => act2.any (fun c => c.mediaQuery == b.mediaQuery)) := by
      funext b
      apply bool_eq_of_true_iff
      simp only [List.any_eq_true, beq_iff_eq]
      exact hsame b.mediaQuery
    rw [hpred]
    cases hf : bps.find? (fun b => act2.any (fun c => c.mediaQuery == b.mediaQuery)) with
    | none => rfl
    | some bp =>
      rw [some_bind_eval, some_bind_eval]
      exact find?_raw_by_query act act2 bp.mediaQuery hraw hraw2 (hsame bp.mediaQuery)

/-- Demo registry entries used by concrete witnesses and counterexamples:
a non-overlapping small range and an overlapping greater-than-small range,
in registry (priority) order, as in the concrete scenario of the spec. -/
def bpSm : BreakPoint :=
  { «alias» := "sm", mediaQuery := "Q1" }

def bpGtSm : BreakPoint :=
  { «alias» := "gt-sm", mediaQuery := "Q2", overlapping := true }

theorem changeQueue_priority_activation_resolution_witness :
    (flushActivations [bpSm, bpGtSm]
        [MediaChange.raw true "Q2", MediaChange.raw true "Q1"]).length ≤ 1
    ∧ ChangeQueue.findFirstActivation [bpSm, bpGtSm]
        [MediaChange.raw true "Q2", MediaChange.raw true "Q1"] =
      ChangeQueue.findFirstActivation [bpSm, bpGtSm]
        [MediaChange.raw true "Q1", MediaChange.raw true "Q2"]
    ∧ MediaChange.raw true "Q1" ∈ [MediaChange.raw true "Q2", MediaChange.raw true "Q1"] := by
  have h := changeQueue_priority_activation_resolution [bpSm, bpGtSm]
    [MediaChange.raw true "Q2", MediaChange.raw true "Q1"]
    [MediaChange.raw true "Q1", MediaChange.raw true "Q2"]
    (by decide) (by decide)
    (by
      intro q
      simp only [List.mem_cons, List.not_mem_nil, or_false, MediaChange.raw]
      constructor
      · rintro ⟨c, hc | hc, hq⟩ <;> subst hc <;> simp_all
      · rintro ⟨c, hc | hc, hq⟩ <;> subst hc <;> simp_all)
  exact ⟨h.1, h.2.2, (h.2.1 (MediaChange.raw true "Q1") (by decide)).1⟩

theorem monitorFlushEmits_eq (bps : List BreakPoint) (de act : List MediaChange) :
    monitorFlushEmits bps de act = de ++ flushActivations bps act := by
  unfold monitorFlushEmits ChangeQueue.flushTrace flushActivations
  rw [List.filterMap_append]
  have h1 : (de.map some).filterMap id = de := by
    induction de with
    | nil => rfl
    | cons c t ih => simp [ih]
  have h2 : ([ChangeQueue.findFirstActivation bps act] :
      List (Option MediaChange)).filterMap id =
      (ChangeQueue.findFirstActivation bps act).toList := by
    cases ChangeQueue.findFirstActivation bps act <;> rfl
  rw [h1, h2]

/-- Claim C2 counterexample: in a flush that buffers a deactivation for Q2,
an activation for Q2 and an activation for the higher-priority Q1, the
queued activation for Q2 is not emitted even though its deactivation partner
is, so a deactivation and an activation for the same query buffered in one
flush are not always both emitted. -/
theorem changeQueue_same_query_pair_counterexample :
    MediaChange.raw false "Q2" ∈
      monitorFlushEmits [bpSm, bpGtSm] [MediaChange.raw false "Q2"]
        [MediaChange.raw true "Q2", MediaChange.raw true "Q1"]
    ∧ MediaChange.raw true "Q2" ∉
      monitorFlushEmits [bpSm, bpGtSm] [MediaChange.raw false "Q2"]
        [MediaChange.raw true "Q2", MediaChange.raw true "Q1"] := by
  decide

/-- Claim C2 (amended): every buffered deactivation is emitted, in the order
received, and all of them strictly before the at most one activation of the
flush; a deactivation and an activation for the same query are never
cancelled against each other: the deactivation is always emitted, and when
the same-query activation is the priority-resolution winner both are
emitted with the deactivation first; the activation may however still be
suppressed by a higher-priority queued activation. -/
theorem changeQueue_deactivations_first_in_order
    (bps : List BreakPoint) (de act : List MediaChange) :
    monitorFlushEmits bps de act = de ++ flushActivations bps act
    ∧ (∀ c ∈ de, c ∈ monitorFlushEmits bps de act)
    ∧ (∀ q, MediaChange.raw false q ∈ de →
        ChangeQueue.findFirstActivation bps act = some (MediaChange.raw true q) →
        monitorFlushEmits bps de act = de ++ [MediaChange.raw true q]) := by
  refine ⟨monitorFlushEmits_eq bps de act, ?_, ?_⟩
  · intro c hc
    rw [monitorFlushEmits_eq]
    exact List.mem_append_left _ hc
  · intro q _ hwin
    rw [monitorFlushEmits_eq]
    unfold flushActivations
    rw [hwin]
    rfl

theorem changeQueue_deactivations_first_in_order_witness :
    monitorFlushEmits [bpSm, bpGtSm] [MediaChange.raw false "Q2"]
        [MediaChange.raw true "Q2"] =
      [MediaChange.raw false "Q2"] ++
        flushActivations [bpSm, bpGtSm] [MediaChange.raw true "Q2"]
    ∧ MediaChange.raw false "Q2" ∈
      monitorFlushEmits [bpSm, bpGtSm] [MediaChange.raw false "Q2"]
        [MediaChange.raw true "Q2"]
    ∧ monitorFlushEmits [bpSm, bpGtSm] [MediaChange.raw false "Q2"]
        [MediaChange.raw true "Q2"] =
      [MediaChange.raw false "Q2"] ++ [MediaChange.raw true "Q2"] := by
  obtain ⟨h1, h2, h3⟩ := changeQueue_deactivations_first_in_order
    [bpSm, bpGtSm] [MediaChange.raw false "Q2"] [MediaChange.raw true "Q2"]
  exact ⟨h1, h2 _ (by decide), h3 "Q2" (by decide) (by decide)⟩

/-- Claim C4: a flush whose activated buffer contains no event matching any
registered breakpoint delivers zero activation notifications to subscribers:
the queue passes null to its notify callback and the Monitor _next filter
drops it, so subscribers see only the deactivations, never a null or
placeholder activation event. -/
theorem changeQueue_unmatched_activations_emit_nothing
    (bps : List BreakPoint) (de act : List MediaChange)
    (h : ∀ bp ∈ bps, ∀ c ∈ act, c.mediaQuery ≠ bp.mediaQuery) :
    ChangeQueue.findFirstActivation bps act = none
    ∧ monitorFlushEmits bps de act = de := by
  have hff : ChangeQueue.findFirstActivation bps act = none := by
    rw [findFirstActivation_eq]
    have hnone : bps.find? (fun bp =>
        act.any (fun c => c.mediaQuery == bp.mediaQuery)) = none := by
      rw [List.find?_eq_none]
      intro bp hbp hcontra
      rw [List.any_eq_true] at hcontra
      obtain ⟨c, hc, hq⟩ := hcontra
      exact h bp hbp c hc (by simpa using hq)
    rw [hnone]
    rfl
  refine ⟨hff, ?_⟩
  rw [monitorFlushEmits_eq]
  unfold flushActivations
  rw [hff]
  simp

theorem changeQueue_unmatched_activations_emit_nothing_witness :
    ChangeQueue.findFirstActivation [bpSm, bpGtSm]
        [MediaChange.raw true "custom-query"] = none
    ∧ monitorFlushEmits [bpSm, bpGtSm] [MediaChange.raw false "Q1"]
        [MediaChange.raw true "custom-query"] = [MediaChange.raw false "Q1"] :=
  changeQueue_unmatched_activations_emit_nothing [bpSm, bpGtSm]
    [MediaChange.raw false "Q1"] [MediaChange.raw true "custom-query"]
    (by decide)

/-- Modelled from the spec: BreakPointRegistry.findByAlias
(breakpoints/break-point-registry.ts is not in the sources): the first
registered entry carrying the given alias, or none. -/
def BreakPointRegistry.findByAlias (items : List BreakPoint) (a : String) :
    Option BreakPoint :=
  items.find? (fun bp => bp.«alias» == a)

/-- Modelled from the spec: BreakPointRegistry.findByQuery
(breakpoints/break-point-registry.ts is not in the sources): the first
registered entry carrying the given media query, or none. -/
def BreakPointRegistry.findByQuery (items : List BreakPoint) (q : String) :
    Option BreakPoint :=
  items.find? (fun bp => bp.mediaQuery == q)

/-- Modelled from the spec: BreakPointRegistry.overlappings
(breakpoints/break-point-registry.ts is not in the sources): all entries
flagged overlapping, in registry order. -/
def BreakPointRegistry.overlappings (items : List BreakPoint) : List BreakPoint :=
  items.filter (fun bp => bp.overlapping)

/-- MediaQueryList state held per registered query by MatchMedia: the
current truth of the query, its media string and the attached listeners,
identified by numeric listener ids in attachment order. -/
structure MediaQueryList where
  «matches» : Bool
  media : String
  listeners : List Nat
deriving DecidableEq, Repr

/-- MatchMedia service state from match-media.ts: the private registry map
from query string to its unique MediaQueryList, plus a log of every
_buildMQL invocation, used to count underlying constructions. -/
structure MatchMedia where
  registry : List (String × MediaQueryList)
  builds : List String
deriving DecidableEq, Repr

def MatchMedia.empty : MatchMedia :=
  { registry := [], builds := [] }

/-- Lookup in the insertion-ordered map that models the JavaScript Map. -/
def mapGet (reg : List (String × MediaQueryList)) (q : String) :
    Option MediaQueryList :=
  match reg with
  | [] => none
  | (k, v) :: t => if k = q then some v else mapGet t q

/-- JavaScript Map.set: replace the entry in place when the key exists,
append it otherwise. -/
def mapSet (reg : List (String × MediaQueryList)) (q : String)
    (mql : MediaQueryList) : List (String × MediaQueryList) :=
  match reg with
  | [] => [(q, mql)]
  | (k, v) :: t => if k = q then (q, mql) :: t else (k, v) :: mapSet t q mql

/-- MatchMedia.isActive from match-media.ts lines 52 to 58: the matches flag
of the registered MediaQueryList for the query, false when the query was
never registered. -/
def MatchMedia.isActive (m : MatchMedia) (q : String) : Bool :=
  match mapGet m.registry q with
  | some mql => mql.«matches»
  | none => false

/-- MatchMedia.registerQuery from match-media.ts lines 64 to 79. env gives
the current evaluator truth used when a MediaQueryList is first built. The
returned list holds the notifications delivered synchronously to the new
listener before the call returns: the JavaScript guard if (mediaQuery) skips
the empty query entirely, otherwise the listener is attached to the unique
per-query MediaQueryList (built on first sight, with a _buildMQL log entry)
and, when the list currently matches, it is immediately invoked once with a
raw MediaChange carrying that query. -/
def MatchMedia.registerQuery (env : String → Bool) (m : MatchMedia) (q : String)
    (lid : Nat) : MatchMedia × List (Nat × MediaChange) :=
  if q = "" then (m, [])
  else
    match mapGet m.registry q with
    | some mql =>
      let mql2 : MediaQueryList := { mql with listeners := mql.listeners ++ [lid] }
      ({ m with registry := mapSet m.registry q mql2 },
        if mql2.«matches» then [(lid, MediaChange.raw mql2.«matches» q)] else [])
    | none =>
      let mql : MediaQueryList := { «matches» := env q, media := q, listeners := [lid] }
      ({ registry := mapSet m.registry q mql, builds := m.builds ++ [q] },
        if mql.«matches» then [(lid, MediaChange.raw mql.«matches» q)] else [])

/-- An underlying MediaQueryList transition for query q to truth b: the
browser object updates its matches flag and invokes every attached listener,
each of which builds a raw MediaChange for that query. -/
def MatchMedia.fireEvent (m : MatchMedia) (q : String) (b : Bool) :
    MatchMedia × List (Nat × MediaChange) :=
  match mapGet m.registry q with
  | none => (m, [])
  | some mql =>
    ({ m with registry := mapSet m.registry q { mql with «matches» := b } },
      mql.listeners.map (fun lid => (lid, MediaChange.raw b q)))

/-- State after a sequence of registerQuery calls starting from the empty
service, each call a pair of query string and listener id. -/
def MatchMedia.registerAll (env : String → Bool) (calls : List (String × Nat)) :
    MatchMedia :=
  calls.foldl (fun m c => (MatchMedia.registerQuery env m c.1 c.2).1)
    MatchMedia.empty

/-- Current evaluator truth of a query as the adapter sees it: the stored
matches flag when a MediaQueryList exists, the ambient evaluation
otherwise. -/
def MatchMedia.currentTruth (env : String → Bool) (m : MatchMedia) (q : String) :
    Bool :=
  match mapGet m.registry q with
  | some mql => mql.«matches»
  | none => env q

/-- MediaMonitor.activeOverlaps from the monitor source lines 47 to 52: the
registry overlappings list is reversed and then filtered by current
MatchMedia truth. -/
def MediaMonitor.activeOverlaps (items : List BreakPoint)
    (isAct : String → Bool) : List BreakPoint :=
  ((BreakPointRegistry.overlappings items).reverse).filter
    (fun bp => isAct bp.mediaQuery)

/-- MediaMonitor.active from the monitor source lines 54 to 66: walk a
reversed copy of the registry and keep the first entry with a non-empty
alias whose query is currently active; fall back to the first registry
entry when it is active. The source dereferences the first entry without a
guard, so an empty registry would throw there; the model returns none in
that unreachable configuration. -/
def MediaMonitor.active (items : List BreakPoint) (isAct : String → Bool) :
    Option BreakPoint :=
  let found := items.reverse.find?
    (fun bp => bp.«alias» != "" && isAct bp.mediaQuery)
  found.orElse (fun _ =>
    match items with
    | [] => none
    | first :: _ => if isAct first.mediaQuery then some first else none)

/-- MediaMonitor.isActive from the monitor source lines 71 to 74: resolve
the input as alias, then as query, then treat it as a literal query passed
to MatchMedia.isActive. -/
def MediaMonitor.isActive (items : List BreakPoint) (m : MatchMedia)
    (input : String) : Bool :=
  let bp := (BreakPointRegistry.findByAlias items input).orElse
    (fun _ => BreakPointRegistry.findByQuery items input)
  MatchMedia.isActive m
    (match bp with
     | some b => b.mediaQuery
     | none => input)

theorem find?_append_of_none {α : Type} (p : α → Bool) (l1 l2 : List α)
    (h : ∀ a ∈ l1, p a = false) : (l1 ++ l2).find? p = l2.find? p := by
  induction l1 with
  | nil => rfl
  | cons a t ih =>
    have ha : p a = false := h a (List.mem_cons_self a t)
    rw [List.cons_append, List.find?_cons_of_neg _ (by simp [ha])]
    exact ih (fun b hb => h b (List.mem_cons_of_mem a hb))

/-- Claim C3 counterexample: with the registry [sm (non-overlapping, Q1),
gt-sm (overlapping, Q2)] and an evaluator in which both queries are true,
the active getter returns the overlapping gt-sm range even though the
non-overlapping sm range has the lowest registry index among currently-true
ranges, so active is not the highest-priority currently-true non-overlapping
range. -/
theorem mediaMonitor_active_counterexample :
    MediaMonitor.active [bpSm, bpGtSm] (fun _ => true) = some bpGtSm
    ∧ bpGtSm.overlapping = true
    ∧ bpSm.overlapping = false
    ∧ (some bpGtSm : Option BreakPoint) ≠ some bpSm := by
  refine ⟨rfl, rfl, rfl, by decide⟩

/-- Claim C3 (amended): the active getter walks the registry in reverse
order and returns the first currently-true entry with a non-empty alias
found there, that is, the currently-true non-empty-alias range with the
highest registry index, with no non-overlapping restriction; when no such
entry exists it returns the first registry entry if that one is currently
true, and none otherwise. -/
theorem mediaMonitor_active_reverse_walk
    (l r : List BreakPoint) (bp : BreakPoint) (isAct : String → Bool)
    (hbp : (bp.«alias» != "" && isAct bp.mediaQuery) = true)
    (hr : ∀ b ∈ r, (b.«alias» != "" && isAct b.mediaQuery) = false) :
    MediaMonitor.active (l ++ bp :: r) isAct = some bp
    ∧ (∀ (f : BreakPoint) (t : List BreakPoint),
        (∀ b ∈ f :: t, (b.«alias» != "" && isAct b.mediaQuery) = false) →
        MediaMonitor.active (f :: t) isAct =
          (if isAct f.mediaQuery then some f else none)) := by
  constructor
  · have hrev : (l ++ bp :: r).reverse = (r.reverse ++ [bp]) ++ l.reverse := by
      rw [List.reverse_append, List.reverse_cons, List.append_assoc]
    have hfound : (l ++ bp :: r).reverse.find?
        (fun b => b.«alias» != "" && isAct b.mediaQuery) = some bp := by
      rw [hrev, List.append_assoc,
        find?_append_of_none _ _ _ (fun b hb => hr b (List.mem_reverse.mp hb))]
      exact List.find?_cons_of_pos _ hbp
    unfold MediaMonitor.active
    rw [hfound]
    rfl
  · intro f t hall
    have hfound : (f :: t).reverse.find?
        (fun b => b.«alias» != "" && isAct b.mediaQuery) = none := by
      rw [List.find?_eq_none]
      intro b hb
      simp [hall b (List.mem_reverse.mp hb)]
    unfold MediaMonitor.active
    rw [hfound]
    rfl

theorem mediaMonitor_active_reverse_walk_witness :
    MediaMonitor.active ([] ++ bpGtSm :: [bpSm]) (fun q => q == "Q2") =
      some bpGtSm
    ∧ MediaMonitor.active [bpSm] (fun q => q == "Q2") =
        (if (fun q => q == "Q2") bpSm.mediaQuery then some bpSm else none) := by
  have h := mediaMonitor_active_reverse_walk [] [bpSm] bpGtSm (fun q => q == "Q2")
    (by decide) (by decide)
  exact ⟨h.1, h.2 bpSm [] (by decide)⟩

/-- Claim C7 counterexample: with two overlapping registry entries both
currently true, activeOverlaps lists them in reverse registry order, not in
priority (registry) order. -/
def bpGtXs : BreakPoint :=
  { «alias» := "gt-xs", mediaQuery := "QA", overlapping := true }

theorem mediaMonitor_activeOverlaps_counterexample :
    MediaMonitor.activeOverlaps [bpGtXs, bpGtSm] (fun _ => true) =
      [bpGtSm, bpGtXs]
    ∧ ([bpGtSm, bpGtXs] : List BreakPoint) ≠ [bpGtXs, bpGtSm] := by
  refine ⟨rfl, by decide⟩

/-- Claim C7 (amended): activeOverlaps returns exactly the
overlapping-flagged ranges whose query is currently true, but listed in
reverse registry order rather than in priority order. -/
theorem mediaMonitor_activeOverlaps_reverse_order
    (items : List BreakPoint) (isAct : String → Bool) :
    MediaMonitor.activeOverlaps items isAct =
      (items.filter (fun bp => bp.overlapping && isAct bp.mediaQuery)).reverse
    ∧ (∀ bp, bp ∈ MediaMonitor.activeOverlaps items isAct ↔
        (bp ∈ items ∧ bp.overlapping = true ∧ isAct bp.mediaQuery = true)) := by
  have heq : MediaMonitor.activeOverlaps items isAct =
      (items.filter (fun bp => bp.overlapping && isAct bp.mediaQuery)).reverse := by
    unfold MediaMonitor.activeOverlaps BreakPointRegistry.overlappings
    rw [List.filter_reverse, List.filter_filter]
    congr 1
    apply List.filter_congr
    intro bp _
    rw [Bool.and_comm]
  refine ⟨heq, ?_⟩
  intro bp
  rw [heq]
  simp only [List.mem_reverse, List.mem_filter, Bool.and_eq_true]

/-- Claim C8: an input that is neither a registered alias nor a registered
query is treated by MediaMonitor.isActive as a literal query string passed
to MatchMedia.isActive, which returns false when the literal query has no
registered MediaQueryList or its MediaQueryList does not currently match;
the lookup is a total function and never raises. -/
theorem mediaMonitor_isActive_unknown_literal
    (items : List BreakPoint) (m : MatchMedia) (input : String)
    (h1 : BreakPointRegistry.findByAlias items input = none)
    (h2 : BreakPointRegistry.findByQuery items input = none) :
    MediaMonitor.isActive items m input = MatchMedia.isActive m input
    ∧ (mapGet m.registry input = none →
        MediaMonitor.isActive items m input = false)
    ∧ (∀ mql, mapGet m.registry input = some mql → mql.«matches» = false →
        MediaMonitor.isActive items m input = false) := by
  have hpass : MediaMonitor.isActive items m input = MatchMedia.isActive m input := by
    unfold MediaMonitor.isActive
    rw [h1, h2]
    rfl
  refine ⟨hpass, ?_, ?_⟩
  · intro hnone
    rw [hpass]
    unfold MatchMedia.isActive
    rw [hnone]
  · intro mql hsome hfalse
    rw [hpass]
    unfold MatchMedia.isActive
    rw [hsome]
    exact hfalse

theorem mediaMonitor_isActive_unknown_literal_witness :
    MediaMonitor.isActive [bpSm, bpGtSm] MatchMedia.empty "bogus-alias" =
      MatchMedia.isActive MatchMedia.empty "bogus-alias"
    ∧ MediaMonitor.isActive [bpSm, bpGtSm] MatchMedia.empty "bogus-alias" = false := by
  obtain ⟨h1, h2, _⟩ := mediaMonitor_isActive_unknown_literal
    [bpSm, bpGtSm] MatchMedia.empty "bogus-alias" (by decide) (by decide)
  exact ⟨h1, h2 rfl⟩

/-- Claim C5 counterexample: the empty query string is skipped entirely by
the registerQuery guard, so even when its current evaluation is true no
synthetic activation notification is delivered to the new listener. -/
theorem matchMedia_register_empty_query_counterexample :
    MatchMedia.currentTruth (fun _ => true) MatchMedia.empty "" = true
    ∧ (MatchMedia.registerQuery (fun _ => true) MatchMedia.empty "" 0).2 = [] :=
  ⟨rfl, rfl⟩

/-- Claim C5 (amended): for every non-empty query string whose current
evaluation is true, registering a new listener delivers to that listener,
before the registration call returns, exactly one synthetic activation
notification carrying that query with matches true. -/
theorem matchMedia_register_active_query_notifies
    (env : String → Bool) (m : MatchMedia) (q : String) (lid : Nat)
    (hq : q ≠ "") (htrue : MatchMedia.currentTruth env m q = true) :
    (MatchMedia.registerQuery env m q lid).2 = [(lid, MediaChange.raw true q)] := by
  unfold MatchMedia.registerQuery
  rw [if_neg hq]
  unfold MatchMedia.currentTruth at htrue
  cases hg : mapGet m.registry q with
  | some mql =>
    rw [hg] at htrue
    have ht : mql.«matches» = true := htrue
    simp [hg, ht]
  | none =>
    rw [hg] at htrue
    have ht : env q = true := htrue
    simp [hg, ht]

theorem matchMedia_register_active_query_notifies_witness :
    MatchMedia.currentTruth (fun q => q == "Q1") MatchMedia.empty "Q1" = true
    ∧ (MatchMedia.registerQuery (fun q => q == "Q1") MatchMedia.empty "Q1" 7).2 =
        [(7, MediaChange.raw true "Q1")] :=
  ⟨rfl,
    matchMedia_register_active_query_notifies (fun q => q == "Q1")
      MatchMedia.empty "Q1" 7 (by decide) rfl⟩

/-! Map lemmas for the MatchMedia registry. -/

theorem mapGet_mapSet_self (reg : List (String × MediaQueryList)) (q : String)
    (mql : MediaQueryList) : mapGet (mapSet reg q mql) q = some mql := by
  induction reg with
  | nil => simp [mapSet, mapGet]
  | cons p t ih =>
    obtain ⟨k, v⟩ := p
    by_cases h : k = q
    · simp [mapSet, h, mapGet]
    · simp [mapSet, h, mapGet, ih]

theorem mapGet_mapSet_other (reg : List (String × MediaQueryList)) (q q2 : String)
    (mql : MediaQueryList) (h : q2 ≠ q) :
    mapGet (mapSet reg q mql) q2 = mapGet reg q2 := by
  have h2 : ¬ q = q2 := fun hc => h hc.symm
  induction reg with
  | nil => simp [mapSet, mapGet, h2]
  | cons p t ih =>
    obtain ⟨k, v⟩ := p
    by_cases hk : k = q
    · simp [mapSet, hk, mapGet, h2]
    · simp [mapSet, hk, mapGet, ih]

theorem mapSet_keys_present (reg : List (String × MediaQueryList)) (q : String)
    (mql : MediaQueryList) (h : (mapGet reg q).isSome = true) :
    (mapSet reg q mql).map Prod.fst = reg.map Prod.fst := by
  induction reg with
  | nil => simp [mapGet] at h
  | cons p t ih =>
    obtain ⟨k, v⟩ := p
    by_cases hk : k = q
    · simp [mapSet, hk]
    · rw [mapGet] at h
      rw [if_neg hk] at h
      simp [mapSet, hk, ih h]

theorem mapSet_keys_absent (reg : List (String × MediaQueryList)) (q : String)
    (mql : MediaQueryList) (h : mapGet reg q = none) :
    (mapSet reg q mql).map Prod.fst = reg.map Prod.fst ++ [q] := by
  induction reg with
  | nil => simp [mapSet]
  | cons p t ih =>
    obtain ⟨k, v⟩ := p
    rw [mapGet] at h
    by_cases hk : k = q
    · rw [if_pos hk] at h
      exact absurd h (by simp)
    · rw [if_neg hk] at h
      simp [mapSet, hk, ih h]

theorem registerQuery_state_skip (env : String → Bool) (m : MatchMedia) (lid : Nat) :
    (MatchMedia.registerQuery env m "" lid).1 = m := by
  unfold MatchMedia.registerQuery
  rw [if_pos rfl]

theorem registerQuery_state_existing (env : String → Bool) (m : MatchMedia)
    (q : String) (lid : Nat) (mql : MediaQueryList)
    (hq : q ≠ "") (hg : mapGet m.registry q = some mql) :
    (MatchMedia.registerQuery env m q lid).1 =
      { m with registry :=
          mapSet m.registry q { mql with listeners := mql.listeners ++ [lid] } } := by
  unfold MatchMedia.registerQuery
  rw [if_neg hq, hg]

theorem registerQuery_state_new (env : String → Bool) (m : MatchMedia)
    (q : String) (lid : Nat)
    (hq : q ≠ "") (hg : mapGet m.registry q = none) :
    (MatchMedia.registerQuery env m q lid).1 =
      { registry := mapSet m.registry q
          { «matches» := env q, media := q, listeners := [lid] },
        builds := m.builds ++ [q] } := by
  unfold MatchMedia.registerQuery
  rw [if_neg hq, hg]

theorem registerAll_invariant (env : String → Bool) (calls : List (String × Nat))
    (q : String) (hq : q ≠ "") :
    mapGet (MatchMedia.registerAll env calls).registry q =
      (if calls.any (fun c => c.1 == q) then
        some { «matches» := env q, media := q,
               listeners := (calls.filter (fun c => c.1 == q)).map Prod.snd }
       else none)
    ∧ (MatchMedia.registerAll env calls).builds.count q =
        (if calls.any (fun c => c.1 == q) then 1 else 0)
    ∧ ((MatchMedia.registerAll env calls).registry.map Prod.fst).count q =
        (if calls.any (fun c => c.1 == q) then 1 else 0) := by
  induction calls using List.reverseRecOn with
  | nil => exact ⟨rfl, rfl, rfl⟩
  | append_singleton calls c ih =>
    obtain ⟨a, lid⟩ := c
    obtain ⟨ih1, ih2, ih3⟩ := ih
    have hfold : MatchMedia.registerAll env (calls ++ [(a, lid)]) =
        (MatchMedia.registerQuery env (MatchMedia.registerAll env calls) a lid).1 := by
      unfold MatchMedia.registerAll
      rw [List.foldl_append]
      rfl
    by_cases ha0 : a = ""
    · subst ha0
      have hb : (("" : String) == q) = false := by
        simp only [beq_eq_false_iff_ne]
        exact fun hc => hq hc.symm
      have hany : (calls ++ [("", lid)]).any (fun c => c.1 == q) =
          calls.any (fun c => c.1 == q) := by
        rw [List.any_append]
        simp [hb]
      have hfil : (calls ++ [("", lid)]).filter (fun c => c.1 == q) =
          calls.filter (fun c => c.1 == q) := by
        rw [List.filter_append]
        simp [hb]
      rw [hfold, registerQuery_state_skip, hany, hfil]
      exact ⟨ih1, ih2, ih3⟩
    · by_cases haq : a = q
      · subst haq
        have hanyT : (calls ++ [(a, lid)]).any (fun c => c.1 == a) = true := by
          rw [List.any_append]
          simp
        have hfil : (calls ++ [(a, lid)]).filter (fun c => c.1 == a) =
            calls.filter (fun c => c.1 == a) ++ [(a, lid)] := by
          rw [List.filter_append]
          simp
        cases hcase : calls.any (fun c => c.1 == a) with
        | true =>
          rw [if_pos hcase] at ih1 ih2 ih3
          rw [hfold, registerQuery_state_existing env _ a lid _ ha0 ih1]
          refine ⟨?_, ?_, ?_⟩
          · rw [if_pos hanyT]
            simp [mapGet_mapSet_self, hfil]
          · simp [hanyT, ih2]
          · have hsome : (mapGet (MatchMedia.registerAll env calls).registry a).isSome
                = true := by
              rw [ih1]
              rfl
            simp only []
            rw [mapSet_keys_present _ _ _ hsome, if_pos hanyT]
            exact ih3
        | false =>
          have hnone : mapGet (MatchMedia.registerAll env calls).registry a = none := by
            rw [ih1, if_neg]
            simp [hcase]
          rw [if_neg (by simp [hcase])] at ih2 ih3
          have hfilnil : calls.filter (fun c => c.1 == a) = [] := by
            rw [List.filter_eq_nil_iff]
            intro x hx hpx
            have hxany : calls.any (fun c => c.1 == a) = true :=
              List.any_eq_true.mpr ⟨x, hx, hpx⟩
            rw [hcase] at hxany
            exact absurd hxany (by simp)
          rw [hfold, registerQuery_state_new env _ a lid ha0 hnone]
          refine ⟨?_, ?_, ?_⟩
          · rw [if_pos hanyT]
            simp [mapGet_mapSet_self, hfil, hfilnil]
          · rw [if_pos hanyT]
            simp [List.count_append, ih2]
          · rw [if_pos hanyT]
            simp only []
            rw [mapSet_keys_absent _ _ _ hnone, List.count_append, ih3]
            simp
      · have hbaq : ((a == q) : Bool) = false := by
          simp [beq_eq_false_iff_ne, haq]
        have hany : (calls ++ [(a, lid)]).any (fun c => c.1 == q) =
            calls.any (fun c => c.1 == q) := by
          rw [List.any_append]
          simp [hbaq]
        have hfil : (calls ++ [(a, lid)]).filter (fun c => c.1 == q) =
            calls.filter (fun c => c.1 == q) := by
          rw [List.filter_append]
          simp [hbaq]
        have hqa : q ≠ a := fun hc => haq hc.symm
        cases hga : mapGet (MatchMedia.registerAll env calls).registry a with
        | some mqlA =>
          rw [hfold, registerQuery_state_existing env _ a lid mqlA ha0 hga, hany, hfil]
          have hsomeA : (mapGet (MatchMedia.registerAll env calls).registry a).isSome
              = true := by
            rw [hga]
            rfl
          refine ⟨?_, ?_, ?_⟩
          · simp only []
            rw [mapGet_mapSet_other _ _ _ _ hqa]
            exact ih1
          · exact ih2
          · simp only []
            rw [mapSet_keys_present _ _ _ hsomeA]
            exact ih3
        | none =>
          rw [hfold, registerQuery_state_new env _ a lid ha0 hga, hany, hfil]
          refine ⟨?_, ?_, ?_⟩
          · simp only []
            rw [mapGet_mapSet_other _ _ _ _ hqa]
            exact ih1
          · simp only []
            rw [List.count_append, ih2]
            simp [hbaq, List.count_singleton]
          · simp only []
            rw [mapSet_keys_absent _ _ _ hga, List.count_append, ih3]
            simp [hbaq, List.count_singleton]

theorem filter_eq_nil_of_any_false {α : Type} (p : α → Bool) (l : List α)
    (h : l.any p = false) : l.filter p = [] := by
  rw [List.filter_eq_nil_iff]
  intro x hx hpx
  have hxany : l.any p = true := List.any_eq_true.mpr ⟨x, hx, hpx⟩
  rw [h] at hxany
  exact absurd hxany (by simp)

/-- Claim C6: after any sequence of registerQuery calls starting from the
empty adapter, each distinct non-empty query string that was registered has
exactly one _buildMQL construction and exactly one registry entry, no matter
how many listeners were registered for it, and an underlying event for that
string is fanned out to every listener attached to it, in attachment
order. -/
theorem matchMedia_one_subscription_per_query
    (env : String → Bool) (calls : List (String × Nat)) (q : String) (b : Bool)
    (hq : q ≠ "") :
    (MatchMedia.registerAll env calls).builds.count q =
      (if calls.any (fun c => c.1 == q) then 1 else 0)
    ∧ ((MatchMedia.registerAll env calls).registry.map Prod.fst).count q =
      (if calls.any (fun c => c.1 == q) then 1 else 0)
    ∧ (MatchMedia.fireEvent (MatchMedia.registerAll env calls) q b).2 =
        ((calls.filter (fun c => c.1 == q)).map Prod.snd).map
          (fun lid => (lid, MediaChange.raw b q)) := by
  obtain ⟨h1, h2, h3⟩ := registerAll_invariant env calls q hq
  refine ⟨h2, h3, ?_⟩
  unfold MatchMedia.fireEvent
  cases hcase : calls.any (fun c => c.1 == q) with
  | true =>
    rw [if_pos hcase] at h1
    rw [h1]
  | false =>
    rw [if_neg (by simp [hcase])] at h1
    rw [h1, filter_eq_nil_of_any_false _ _ hcase]
    rfl

theorem matchMedia_one_subscription_per_query_witness :
    (MatchMedia.registerAll (fun _ => true)
        [("qa", 0), ("qa", 1), ("qb", 2)]).builds.count "qa" =
      (if ([("qa", 0), ("qa", 1), ("qb", 2)] : List (String × Nat)).any
          (fun c => c.1 == "qa") then 1 else 0)
    ∧ ((MatchMedia.registerAll (fun _ => true)
        [("qa", 0), ("qa", 1), ("qb", 2)]).registry.map Prod.fst).count "qa" =
      (if ([("qa", 0), ("qa", 1), ("qb", 2)] : List (String × Nat)).any
          (fun c => c.1 == "qa") then 1 else 0)
    ∧ (MatchMedia.fireEvent (MatchMedia.registerAll (fun _ => true)
          [("qa", 0), ("qa", 1), ("qb", 2)]) "qa" false).2 =
        ((([("qa", 0), ("qa", 1), ("qb", 2)] : List (String × Nat)).filter
            (fun c => c.1 == "qa")).map Prod.snd).map
          (fun lid => (lid, MediaChange.raw false "qa")) :=
  matchMedia_one_subscription_per_query (fun _ => true)
    [("qa", 0), ("qa", 1), ("qb", 2)] "qa" false (by decide)

/-- Modelled from the spec: mergeAlias (utils/add-alias.ts is not in the
sources): alias injection produces a new event carrying the original query
and matches plus the alias and suffix of the resolved breakpoint, and leaves
the event unchanged when no breakpoint resolves. -/
def mergeAlias (dest : MediaChange) (source : Option BreakPoint) : MediaChange :=
  match source with
  | some bp => { dest with mqAlias := bp.«alias», suffix := bp.suffix }
  | none => dest

theorem mergeAlias_matches (c : MediaChange) (bp : Option BreakPoint) :
    (mergeAlias c bp).«matches» = c.«matches» := by
  cases bp <;> rfl

theorem mergeAlias_mediaQuery (c : MediaChange) (bp : Option BreakPoint) :
    (mergeAlias c bp).mediaQuery = c.mediaQuery := by
  cases bp <;> rfl

/-- The delivered sequence of the ObservableMedia facade for a sequence of
events pushed through its BehaviorSubject, from
observable-media-service.ts lines 146 to 156: filter events whose matches
flag is true, then inject alias information resolved by query. -/
def MediaService.deliverList (items : List BreakPoint)
    (events : List MediaChange) : List MediaChange :=
  (events.filter (fun change => change.«matches» == true)).map
    (fun change =>
      mergeAlias change (BreakPointRegistry.findByQuery items change.mediaQuery))

/-- Claim C9: for every emitted event sequence, the Observable Facade
delivers exactly the matches=true entries, in their original relative order
(with alias information injected, which changes neither query nor matches),
and never delivers a matches=false entry. -/
theorem observableMedia_delivers_only_activations
    (items : List BreakPoint) (events : List MediaChange) :
    (∀ c ∈ MediaService.deliverList items events, c.«matches» = true)
    ∧ (MediaService.deliverList items events).map
        (fun c => (c.mediaQuery, c.«matches»)) =
      (events.filter (fun c => c.«matches» == true)).map
        (fun c => (c.mediaQuery, c.«matches»))
    ∧ (∀ c ∈ events, c.«matches» = false →
        ∀ d ∈ MediaService.deliverList items events, d.«matches» ≠ false) := by
  have hmem : ∀ c ∈ MediaService.deliverList items events, c.«matches» = true := by
    intro c hc
    unfold MediaService.deliverList at hc
    obtain ⟨pre, hpre, hmap⟩ := List.mem_map.mp hc
    have hfil := (List.mem_filter.mp hpre).2
    rw [← hmap, mergeAlias_matches]
    simpa using hfil
  refine ⟨hmem, ?_, ?_⟩
  · unfold MediaService.deliverList
    rw [List.map_map]
    apply List.map_congr_left
    intro c _
    simp [Function.comp, mergeAlias_matches, mergeAlias_mediaQuery]
  · intro c _ _ d hd
    rw [hmem d hd]
    simp

theorem observableMedia_delivers_only_activations_witness :
    (MediaService.deliverList [bpSm]
        [MediaChange.raw true "Q1", MediaChange.raw false "Q1",
         MediaChange.raw true "QZ"]).map (fun c => (c.mediaQuery, c.«matches»)) =
      (([MediaChange.raw true "Q1", MediaChange.raw false "Q1",
         MediaChange.raw true "QZ"]).filter (fun c => c.«matches» == true)).map
        (fun c => (c.mediaQuery, c.«matches»))
    ∧ (mergeAlias (MediaChange.raw true "Q1")
        (BreakPointRegistry.findByQuery [bpSm] "Q1")).«matches» = true := by
  have h := observableMedia_delivers_only_activations [bpSm]
    [MediaChange.raw true "Q1", MediaChange.raw false "Q1",
     MediaChange.raw true "QZ"]
  exact ⟨h.2.1, h.1 _ (by decide)⟩

/-- What a new subscriber of the Monitor BehaviorSubject stream receives at
subscription time: the subject replays its current value unconditionally. -/
def monitorSubscribeEmits (cur : MediaChange) : List MediaChange :=
  [cur]

/-- What a new subscriber of the ObservableMedia facade receives at
subscription time: the replayed current value passes the matches filter and
the alias injection map of _buildObservable before reaching the
subscriber. -/
def MediaService.subscribeEmits (items : List BreakPoint) (cur : MediaChange) :
    List MediaChange :=
  if cur.«matches» == true then
    [mergeAlias cur (BreakPointRegistry.findByQuery items cur.mediaQuery)]
  else []

/-- Current value of a BehaviorSubject seeded with init after pushing the
given emitted events through it: the last event pushed, or the seed. -/
def lastValue (init : MediaChange) (emitted : List MediaChange) : MediaChange :=
  emitted.getLast?.getD init

/-- Claim C10 counterexample: a flush that only carries a deactivation
leaves the deactivation as the most recently emitted event of the service
BehaviorSubject; a subscriber then joining the activation-only facade
receives nothing at subscription, so the facade does not replay the single
most recently emitted change event. -/
theorem facade_replay_counterexample :
    monitorFlushEmits [bpSm, bpGtSm] [MediaChange.raw false "Q1"] [] =
      [MediaChange.raw false "Q1"]
    ∧ lastValue MediaChange.initial [MediaChange.raw false "Q1"] =
      MediaChange.raw false "Q1"
    ∧ MediaService.subscribeEmits [bpSm, bpGtSm] (MediaChange.raw false "Q1") = [] :=
  ⟨rfl, rfl, rfl⟩

/-- Claim C10 (amended): a new subscriber of the Monitor stream immediately
receives the single most recently emitted change event unconditionally; a
new subscriber of the activation-only facade immediately receives it exactly
when that event has matches=true (alias-injected), and receives nothing when
the most recent event is a deactivation; in particular before any raw
evaluator event both streams replay the synthetic initial event, which has
matches=true, the universal query and empty alias and suffix, so even
facade subscribers receive it. -/
theorem subscription_replay_semantics
    (items : List BreakPoint)
    (hall : BreakPointRegistry.findByQuery items "all" = none) :
    (∀ cur : MediaChange, monitorSubscribeEmits cur = [cur])
    ∧ (∀ d : MediaChange, d.«matches» = true →
        MediaService.subscribeEmits items d =
          [mergeAlias d (BreakPointRegistry.findByQuery items d.mediaQuery)])
    ∧ (∀ d : MediaChange, d.«matches» = false →
        MediaService.subscribeEmits items d = [])
    ∧ MediaChange.initial.«matches» = true
    ∧ MediaChange.initial.mqAlias = ""
    ∧ MediaChange.initial.suffix = ""
    ∧ MediaService.subscribeEmits items MediaChange.initial = [MediaChange.initial]
    ∧ monitorSubscribeEmits MediaChange.initial = [MediaChange.initial] := by
  refine ⟨fun cur => rfl, ?_, ?_, rfl, rfl, rfl, ?_, rfl⟩
  · intro d hd
    unfold MediaService.subscribeEmits
    rw [hd]
    rfl
  · intro d hd
    unfold MediaService.subscribeEmits
    rw [hd]
    rfl
  · unfold MediaService.subscribeEmits
    have h1 : MediaChange.initial.«matches» = true := rfl
    rw [h1]
    have h2 : MediaChange.initial.mediaQuery = "all" := rfl
    rw [h2, hall]
    rfl

theorem subscription_replay_semantics_witness :
    monitorSubscribeEmits (MediaChange.raw true "Q1") = [MediaChange.raw true "Q1"]
    ∧ MediaService.subscribeEmits [bpSm, bpGtSm] (MediaChange.raw true "Q1") =
        [mergeAlias (MediaChange.raw true "Q1")
          (BreakPointRegistry.findByQuery [bpSm, bpGtSm] "Q1")]
    ∧ MediaService.subscribeEmits [bpSm, bpGtSm] (MediaChange.raw false "Q2") = []
    ∧ MediaService.subscribeEmits [bpSm, bpGtSm] MediaChange.initial =
        [MediaChange.initial] := by
  obtain ⟨h1, h2, h3, _, _, _, h7, _⟩ :=
    subscription_replay_semantics [bpSm, bpGtSm] (by decide)
  exact ⟨h1 (MediaChange.raw true "Q1"), h2 (MediaChange.raw true "Q1") rfl,
    h3 (MediaChange.raw false "Q2") rfl, h7⟩
